import Mathlib

/-!
Verification of the ConnectFourBack server (Express + ws + mysql backend).

The development shallow-embeds the JavaScript source:

* `src/back/db.js` — database layer (in-memory association lists stand in for
  the MySQL tables; each query keeps the source's observable behaviour).
* `src/unnamed/part_000` — business layer (`logic.js`): username
  sanitization, session-token weaving, game creation.
* `src/unnamed/part_001` — the HTTP + WebSocket server: the
  `POST /game/:gameId/move` handler, the room map, the connection registry,
  and the WebSocket message dispatcher.

JavaScript runtime errors (`ReferenceError`, `TypeError`) that the source can
actually raise are modelled explicitly with `JsError`, because several code
paths of the repository do raise them.
-/

namespace ConnectFour

/-- A JavaScript runtime exception, as raised by evaluating an undefined
identifier (`ReferenceError`) or accessing a property of `undefined`
(`TypeError`). -/
inductive JsError where
  | referenceError (name : String)
  | typeError (msg : String)
deriving DecidableEq, Repr

/-- A stone colour: the move handler writes the string `"red"` for player 1
and `"yellow"` for player 2 into the board. -/
inductive Color where
  | red
  | yellow
deriving DecidableEq, Repr

/-- The parsed `game_state`: a list of rows, each row a list of cells; `none`
is JSON `null` (empty cell). `logic.createGame` builds 6 rows of 7 cells. -/
abbrev Board := List (List (Option Color))

/-- `board[row][col]` with JavaScript semantics for the empty test
`!board[row][col]`: an out-of-range access yields `undefined`, which is falsy
exactly like `null`, so the default is `none`. -/
def cellAt (b : Board) (r c : Nat) : Option Color :=
  (b.getD r []).getD c none

/-- `logic.js createGame`: `Array(6).fill(null).map(() => Array(7).fill(null))`. -/
def initialBoard : Board :=
  List.replicate 6 (List.replicate 7 none)

/-- The descending scan of the move handler
(`for (let row = board.length - 1; row >= 0; row--)`): starting just below
`fuel`, return the first row index whose cell in column `c` is falsy. -/
def findDropRowAux (b : Board) (c : Nat) : Nat → Option Nat
  | 0 => none
  | n + 1 => if cellAt b n c = none then some n else findDropRowAux b c n

/-- The full scan of the handler's `for` loop, beginning at
`board.length - 1`. -/
def findDropRow (b : Board) (c : Nat) : Option Nat :=
  findDropRowAux b c b.length

/-- `board[row][col] = color` (in-place mutation of the parsed board). -/
def setCell (b : Board) (r c : Nat) (color : Color) : Board :=
  b.set r ((b.getD r []).set c (some color))

/-- Lines 197–208 of the server: scan the column bottom-up; on the first
falsy cell write the mover's colour and stop (`placed = true; break`); if no
row was found the handler replies "Column is full". -/
def placeOnBoard (b : Board) (c : Nat) (color : Color) : Option (Board × Nat) :=
  match findDropRow b c with
  | some r => some (setCell b r c color, r)
  | none => none

/-- One row of the `game` table, as read by `getGameWithId`.  The columns
`player1_id`, `player2_id`, `current_turn`, `winner_id` are nullable, hence
`Option Nat`; `game_state` is stored as JSON text and parsed by the move
handler, here kept in parsed form. -/
structure Game where
  player1 : Option Nat
  player2 : Option Nat
  currentTurn : Option Nat
  gameState : Board
  winner : Option Nat
deriving DecidableEq, Repr

/-- `SELECT * FROM game WHERE game_id = ? LIMIT 1` over the in-memory table. -/
def lookupGame (games : List (Nat × Game)) (gid : Nat) : Option Game :=
  (games.find? (fun p => p.1 == gid)).map (fun p => p.2)

/-- `db.js updateGameState` (lines 154–158).  The function is declared with
an empty parameter list — `async function updateGameState()` — yet its body
reads the identifiers `board`, `nextTurn` and `gameId`, none of which is
bound anywhere in `db.js`'s module scope.  Evaluating the query arguments
therefore begins with `JSON.stringify(board)`, which throws
`ReferenceError: board is not defined`; the `UPDATE game SET ...` statement
is never sent.  The three arguments passed by `logic.updateGameState` are
silently dropped by JavaScript, exactly as the ignored parameters here. -/
def updateGameState (_board : Board) (_nextTurn : Option Nat) (_gameId : Nat) :
    Except JsError Nat :=
  .error (.referenceError "board")

/-- The HTTP outcome of `POST /game/:gameId/move`.  `thrown` means the async
route handler raised an exception that nothing catches (the route has no
`try`/`catch`), so no HTTP response is produced at all. -/
inductive MoveOutcome where
  | invalidColumn
  | gameNotFound
  | notYourTurn
  | columnFull
  | thrown (e : JsError)
  | moveMade
deriving DecidableEq, Repr

/-- The `gameMove` push built at line 213 of the server. -/
structure MoveMsg where
  gameId : Nat
  col : Int
  row : Nat
  playerId : Nat
deriving DecidableEq, Repr

/-- `POST /game/:gameId/move` (lines 179–223 of the server), as a function of
the stored games, the WebSocket registry (`userSockets`, a set of registered
user ids), and the request.  It returns the HTTP outcome, the stored games
afterwards, and the list of `(recipient, message)` WebSocket pushes.

* `col < 0 || col >= 7` → 400 "Invalid column";
* unknown game → 404; `game.current_turn !== playerId` → 400 "Not your turn";
* no falsy cell in the column → 400 "Column is full";
* otherwise the handler `await`s `logic.updateGameState`, which forwards to
  the broken `db.js updateGameState` and rejects with a `ReferenceError`
  (see `updateGameState` above), so the handler throws: nothing is
  persisted, and lines 213–222 (the `moveMessage` pushes and the 200 reply)
  are never reached.  Even if persistence were repaired, line 213's
  shorthand `moveMessage = { ..., row, ... }` reads `row`, which is scoped to
  the `for` loop head and is not a binding at line 213, again a
  `ReferenceError`; the dead continuation is modelled accordingly. -/
def moveHandler (games : List (Nat × Game)) (registered : List Nat)
    (gameId : Nat) (playerId : Nat) (col : Int) :
    MoveOutcome × List (Nat × Game) × List (Nat × MoveMsg) :=
  if col < 0 ∨ 7 ≤ col then (.invalidColumn, games, [])
  else
    match lookupGame games gameId with
    | none => (.gameNotFound, games, [])
    | some game =>
      if game.currentTurn ≠ some playerId then (.notYourTurn, games, [])
      else
        let color := if game.player1 = some playerId then Color.red else Color.yellow
        match placeOnBoard game.gameState col.toNat color with
        | none => (.columnFull, games, [])
        | some (newBoard, _row) =>
          let nextTurn := if game.player1 = some playerId then game.player2 else game.player1
          match updateGameState newBoard nextTurn gameId with
          | .error e => (.thrown e, games, [])
          | .ok _ =>
            -- dead code: `updateGameState` always rejects; and line 213's
            -- `row` is itself out of scope there (see the doc comment)
            let _ := registered
            (.thrown (.referenceError "row"), games, [])

/-! ## Session token derivation (`logic.js`, lines 234–255)

`hashTokenPart` is Node's `crypto.createHash('sha256')...digest('hex')`: a
cryptographic primitive whose only property used by the code is that its
output is a fixed-length hex string (64 characters).  It is modelled as an
abstract `digest` parameter; theorems assume only the fixed output length.
Strings are modelled as `List Char`; the `String(ip)` / `String(userId)`
coercions are absorbed into the `List Char` representation of the inputs. -/

/-- The characters JavaScript appends when `weavedToken += hash[i]` is
evaluated with `i` past the end of the string (`hash[i]` is `undefined`,
and `+=` stringifies it).  Never reached when the three digests have equal
length. -/
def undefinedChars : List Char :=
  ['u', 'n', 'd', 'e', 'f', 'i', 'n', 'e', 'd']

/-- `hash[i]` followed by `weavedToken += ...`: the appended characters. -/
def jsCharAt (s : List Char) (i : Nat) : List Char :=
  match s[i]? with
  | some ch => [ch]
  | none => undefinedChars

/-- `createWeave(hash1, hash2, hash3)` (`logic.js` lines 244–255):
`hashLength = Math.max(...)`, then for `i = 0 .. hashLength-1` append
`hash1[i]`, `hash2[i]`, `hash3[i]` in that order. -/
def createWeave (h1 h2 h3 : List Char) : List Char :=
  (List.range (max h1.length (max h2.length h3.length))).flatMap
    (fun i => jsCharAt h1 i ++ (jsCharAt h2 i ++ jsCharAt h3 i))

/-- `createSessionToken(ip, userId, username)` (`logic.js` lines 234–241):
hash the three inputs independently and weave the digests. -/
def createSessionToken (digest : List Char → List Char)
    (ip userId username : List Char) : List Char :=
  createWeave (digest ip) (digest userId) (digest username)

/-! ## Rooms and the connection registry (server, lines 246–313, 470–486)

`rooms` is a JavaScript `Map` from room name to a `Set` of sockets, modelled
as an association list from `Option String` (a key may be `undefined` when a
client omits the `room` field) to a duplicate-free list of socket ids in
insertion order.  `userSockets` maps a user id to its socket. -/

/-- Room name → members.  The key is `Option String` because `data.room` may
be `undefined` and `Map.set` accepts it as a key. -/
abbrev RoomMap := List (Option String × List Nat)

/-- `rooms.has(name)`. -/
def hasRoom (rooms : RoomMap) (name : Option String) : Bool :=
  rooms.any (fun p => p.1 == name)

/-- `rooms.get(name)`, with `[]` standing for the `undefined` result of a
missing key (only ever read after a `has` check in the source). -/
def getRoom (rooms : RoomMap) (name : Option String) : List Nat :=
  ((rooms.find? (fun p => p.1 == name)).map (fun p => p.2)).getD []

/-- In-place mutation of the `Set` stored under `name` (every occurrence of
the key is updated; a JavaScript `Map` holds each key once). -/
def setRoomMembers (rooms : RoomMap) (name : Option String) (ms : List Nat) :
    RoomMap :=
  rooms.map (fun p => if p.1 == name then (p.1, ms) else p)

/-- `Set.add(ws)`: append, unless already a member. -/
def roomAdd (ms : List Nat) (ws : Nat) : List Nat :=
  if ws ∈ ms then ms else ms ++ [ws]

/-- `case "join"` (server lines 300–306): create the room if absent
(`Map.set` appends a fresh key), then `rooms.get(room).add(ws)`; the two
branches spell out whether the `Map.set` happened. -/
def joinRoom (rooms : RoomMap) (name : Option String) (ws : Nat) : RoomMap :=
  if hasRoom rooms name then
    setRoomMembers rooms name (roomAdd (getRoom rooms name) ws)
  else
    setRoomMembers (rooms ++ [(name, [])]) name
      (roomAdd (getRoom (rooms ++ [(name, [])]) name) ws)

/-- `case "leave"` (server lines 308–313): if the room exists, delete the
socket from its member set.  The room itself is never deleted here, not even
when it becomes empty. -/
def leaveRoom (rooms : RoomMap) (name : Option String) (ws : Nat) : RoomMap :=
  if hasRoom rooms name then setRoomMembers rooms name ((getRoom rooms name).erase ws)
  else rooms

/-- `ws.on('close')` (server lines 470–486): `userSockets.delete(userId)`,
then for every room: if the socket is a member, remove it, and delete the
room when it is not `"lobby"` and just became empty. -/
def closeHandler (userSockets : List (Nat × Nat)) (rooms : RoomMap)
    (userId ws : Nat) : List (Nat × Nat) × RoomMap :=
  (userSockets.filter (fun p => p.1 != userId),
   rooms.filterMap (fun p =>
     if ws ∈ p.2 then
       if p.1 ≠ some "lobby" ∧ p.2.erase ws = [] then none
       else some (p.1, p.2.erase ws)
     else some p))

/-! ## The WebSocket message dispatcher (server, lines 294–468) -/

/-- One row of the `challenge` table, as selected by
`getChallengeWithId` (`db.js` lines 111–114). -/
structure Challenge where
  senderId : Nat
  challengerId : Nat
deriving DecidableEq, Repr

/-- The shared mutable server state: `userSockets` (userId → socket),
`rooms`, and the database tables touched by the dispatcher.  `openConns`
is the set of sockets whose `readyState` is `OPEN`. -/
structure ServerState where
  userSockets : List (Nat × Nat)
  rooms : RoomMap
  challenges : List (Nat × Challenge)
  games : List (Nat × Game)
  nextGameId : Nat
  openConns : List Nat
deriving DecidableEq, Repr

/-- `userSockets.get(u)` (also covers `userSockets.has(u)` via `isSome`). -/
def lookupSocket (us : List (Nat × Nat)) (u : Nat) : Option Nat :=
  (us.find? (fun p => p.1 == u)).map (fun p => p.2)

/-- `SELECT sender_id, challenger_id FROM challenge WHERE challenge_id = ?`. -/
def lookupChallenge (cs : List (Nat × Challenge)) (cid : Nat) :
    Option Challenge :=
  (cs.find? (fun p => p.1 == cid)).map (fun p => p.2)

/-- A successfully `JSON.parse`d inbound payload, destructured as at server
line 297: every field other than `action` may be absent (`undefined`). -/
structure WsData where
  action : String
  room : Option String := none
  challengeId : Option Nat := none
  message : Option String := none
  targetUserId : Option Nat := none
  senderId : Option Nat := none
  accepterId : Option Nat := none
  gmId : Option Nat := none
  gameId : Option Nat := none
  sender : Option String := none
  col : Option Int := none
  row : Option Int := none
  playerId : Option Nat := none
  board : Option Board := none
deriving DecidableEq, Repr

/-- An outbound `ws.send(JSON.stringify(...))` payload. -/
inductive OutMsg where
  | errorMsg (text : String)
  | chat (room : Option String) (text : Option String)
  | challengeNotice (challengeId : Option Nat) (senderId : Nat) (text : Option String)
  | challengeDeclined (challengeId : Nat) (userId : Nat)
  | startGameNotice (opponentId : Option Nat) (gameId : Nat)
deriving DecidableEq, Repr

/-- JavaScript truthiness of an optional numeric field:
`undefined`/`null` and `0` are falsy. -/
def jsTruthyNat : Option Nat → Bool
  | none => false
  | some n => n != 0

/-- The `switch (action)` body (server lines 299–463), returning either the
new state with the list of `(socket, message)` sends, or the JavaScript
exception the branch throws.

* `"declineChallenge"`: when `getChallengeWithId` finds no row, the local
  `challege` is `undefined` and `challege.length` throws a `TypeError`; the
  branch's own `try`/`catch` turns it into a "Failed to decline challenge"
  reply to the sender — the `length === 0` "not found" reply at lines
  355–358 is dead code.  When a row is found, `challege.length` is
  `undefined`, so `=== 0` is false and execution continues.
* `"gameChat"` / `"gameMove"`: both read `gameRooms`, an identifier that is
  defined nowhere in the file (the map is named `rooms`), so both throw
  `ReferenceError: gameRooms is not defined`. -/
def dispatchAction (st : ServerState) (ws uid : Nat) (d : WsData) :
    Except JsError (ServerState × List (Nat × OutMsg)) :=
  if d.action = "join" then
    .ok ({ st with rooms := joinRoom st.rooms d.room ws }, [])
  else if d.action = "leave" then
    .ok ({ st with rooms := leaveRoom st.rooms d.room ws }, [])
  else if d.action = "message" then
    if hasRoom st.rooms d.room then
      .ok (st, ((getRoom st.rooms d.room).filter
        (fun c => st.openConns.contains c)).map
        (fun c => (c, OutMsg.chat d.room d.message)))
    else .ok (st, [(ws, .errorMsg "Room does not exist")])
  else if d.action = "sendChallenge" then
    if jsTruthyNat d.targetUserId then
      match d.targetUserId.bind (lookupSocket st.userSockets) with
      | some conn => .ok (st, [(conn, .challengeNotice d.challengeId uid d.message)])
      | none => .ok (st, [(ws, .errorMsg "Target user is not connected")])
    else .ok (st, [(ws, .errorMsg "Target user is not connected")])
  else if d.action = "declineChallenge" then
    match d.challengeId with
    | none => .ok (st, [(ws, .errorMsg "challengeId is required to decline a challenge")])
    | some cid =>
      if cid = 0 then
        -- `if (!challengeId)`: the number 0 is falsy as well
        .ok (st, [(ws, .errorMsg "challengeId is required to decline a challenge")])
      else
        match lookupChallenge st.challenges cid with
        | none =>
          -- `challege` is `undefined`; `challege.length` throws, the inner
          -- catch replies with this generic error (see the doc comment)
          .ok (st, [(ws, .errorMsg "Failed to decline challenge")])
        | some ch =>
          match lookupSocket st.userSockets ch.senderId with
          | some conn => .ok (st, [(conn, .challengeDeclined cid uid)])
          | none => .ok (st, [])   -- only logged, nothing sent
  else if d.action = "startGame" then
    -- `logic.createGame(senderId, accepterId)`: INSERT a fresh game with
    -- current_turn = senderId and a 6×7 all-null board
    let gid := st.nextGameId
    let newGame : Game :=
      { player1 := d.senderId, player2 := d.accepterId,
        currentTurn := d.senderId, gameState := initialBoard, winner := none }
    let st2 := { st with games := st.games ++ [(gid, newGame)],
                         nextGameId := gid + 1 }
    let toSender :=
      match d.senderId.bind (lookupSocket st.userSockets) with
      | some conn => [(conn, OutMsg.startGameNotice d.accepterId gid)]
      | none => []
    let toAccepter :=
      match d.accepterId.bind (lookupSocket st.userSockets) with
      | some conn => [(conn, OutMsg.startGameNotice d.senderId gid)]
      | none => []
    .ok (st2, toSender ++ toAccepter)
  else if d.action = "gameChat" then
    .error (.referenceError "gameRooms")
  else if d.action = "gameMove" then
    .error (.referenceError "gameRooms")
  else .ok (st, [(ws, .errorMsg "Unknown action")])

/-- `ws.on('message')` (server lines 294–468): `JSON.parse` + destructure
(`raw = none` models a payload that fails structural decode), dispatch, and
the surrounding `try`/`catch` that turns any exception escaping the switch
into an "Invalid message format" reply to the sender. -/
def handleWsMessage (st : ServerState) (ws uid : Nat) (raw : Option WsData) :
    ServerState × List (Nat × OutMsg) :=
  match raw with
  | none => (st, [(ws, .errorMsg "Invalid message format")])
  | some d =>
    match dispatchAction st ws uid d with
    | .ok result => result
    | .error _ => (st, [(ws, .errorMsg "Invalid message format")])

/-- A fixed state used to evaluate the dispatcher at concrete inputs:
users 1 and 2 are registered with sockets 10 and 20, both in the lobby,
and challenge 5 (sender 1, challenger 2) is stored. -/
def demoState : ServerState :=
  { userSockets := [(1, 10), (2, 20)]
    rooms := [(some "lobby", [10, 20])]
    challenges := [(5, ⟨1, 2⟩)]
    games := []
    nextGameId := 1
    openConns := [10, 20] }

/-! ## Username sanitization and the login/create-account paths
(`logic.js` lines 20–68 and 211–217, `db.js` lines 26–35, 62–65) -/

/-- A character admitted by the character class `[a-zA-Z0-9_-]`. -/
def allowedChar (c : Char) : Bool :=
  ('a' ≤ c && c ≤ 'z') || ('A' ≤ c && c ≤ 'Z') || ('0' ≤ c && c ≤ '9')
    || c == '_' || c == '-'

/-- `validateSanitizeUsername` (`logic.js` lines 211–217): strip every
character outside `[a-zA-Z0-9_-]`, then test the stripped string against
`/^[a-zA-Z0-9_-]{3,15}$/` (anchored: every character allowed and length
between 3 and 15); return the stripped string on success, `null` otherwise. -/
def validateSanitizeUsername (username : List Char) : Option (List Char) :=
  let stripped := username.filter allowedChar
  if stripped.all allowedChar = true ∧ 3 ≤ stripped.length ∧ stripped.length ≤ 15
  then some stripped else none

/-- One row of the `users` table. -/
structure UserRow where
  userId : Nat
  username : List Char
  password : List Char
deriving DecidableEq, Repr

/-- `db.js getUserWithUsername` (lines 26–35):
`SELECT ... WHERE username = ? LIMIT 1`.  When the bound value is `null` the
SQL comparison `username = NULL` matches no row.  The found row is returned
only when it has a non-empty password (`if (user && user.password)`). -/
def getUserWithUsername (users : List UserRow) (q : Option (List Char)) :
    Option UserRow :=
  match q with
  | none => none
  | some u =>
    match users.find? (fun row => row.username == u) with
    | some row => if row.password.isEmpty then none else some row
    | none => none

/-- Outcome of `logic.getUserWithUsernamePassword`. -/
inductive LoginResult where
  | errorMsg (text : String)
  | user (row : UserRow)
deriving DecidableEq, Repr

/-- `logic.getUserWithUsernamePassword` (lines 20–39): reject a falsy
password, sanitize the username, query the database with the sanitized
value (possibly `null`), then compare passwords with bcrypt (abstracted as
`bcryptCompare`).  The second component records the values bound to the
database query, in order. -/
def getUserWithUsernamePassword (users : List UserRow)
    (bcryptCompare : List Char → List Char → Bool)
    (username password : List Char) :
    LoginResult × List (Option (List Char)) :=
  if password.isEmpty then (.errorMsg "Please enter a password!", [])
  else
    let sanitized := validateSanitizeUsername username
    let result : LoginResult :=
      match getUserWithUsername users sanitized with
      | none => .errorMsg "Username or password incorrect!"
      | some row =>
        if bcryptCompare password row.password then .user row
        else .errorMsg "Username or password incorrect!"
    (result, [sanitized])

/-- Outcome of `logic.addUser`. -/
inductive CreateResult where
  | errorMsg (text : String)
  | created (newId : Nat)
deriving DecidableEq, Repr

/-- `logic.addUser` (lines 48–68): reject blank or mismatched passwords,
bcrypt-hash the password (abstracted as `hashString`), sanitize the
username, and `INSERT` the pair.  The second component records the
`(username, password)` rows inserted into the `users` table. -/
def addUser (hashString : List Char → List Char) (nextId : Nat)
    (username password confirmPassword : List Char) :
    CreateResult × List (Option (List Char) × List Char) :=
  if password.isEmpty ∨ confirmPassword.isEmpty then
    (.errorMsg "Passwords are blank!", [])
  else
    let passHash := hashString password
    if password ≠ confirmPassword then (.errorMsg "Passwords are not matching!", [])
    else (.created nextId, [(validateSanitizeUsername username, passHash)])

/-! ## Helper lemmas -/

theorem getD_of_length_le {α : Type} (l : List α) (i : Nat) (d : α)
    (h : l.length ≤ i) : l.getD i d = d := by
  rw [List.getD_eq_getElem?_getD, List.getElem?_eq_none h]
  rfl

theorem getD_replicate_of_lt {α : Type} (n i : Nat) (a d : α) (h : i < n) :
    (List.replicate n a).getD i d = a := by
  rw [List.getD_eq_getElem?_getD, List.getElem?_replicate]
  simp [h]

theorem getD_set_self {α : Type} (l : List α) (i : Nat) (a d : α)
    (h : i < l.length) : (l.set i a).getD i d = a := by
  rw [List.getD_eq_getElem?_getD, List.getElem?_set_self h]
  rfl

theorem getD_set_ne {α : Type} (l : List α) (i j : Nat) (a d : α)
    (h : i ≠ j) : (l.set i a).getD j d = l.getD j d := by
  rw [List.getD_eq_getElem?_getD, List.getElem?_set_ne h,
    ← List.getD_eq_getElem?_getD]

theorem cellAt_initialBoard (r c : Nat) : cellAt initialBoard r c = none := by
  have hlen6 : initialBoard.length = 6 := rfl
  have houter : initialBoard.getD r [] = List.replicate 7 none
      ∨ initialBoard.getD r [] = [] := by
    by_cases hr : r < 6
    · exact Or.inl (getD_replicate_of_lt 6 r _ _ hr)
    · exact Or.inr (getD_of_length_le _ _ _ (by omega))
  unfold cellAt
  rcases houter with h | h <;> rw [h]
  · by_cases hcle : c < 7
    · exact getD_replicate_of_lt 7 c _ _ hcle
    · exact getD_of_length_le _ _ _ (by simpa using Nat.le_of_not_lt hcle)
  · rfl

theorem findDropRowAux_eq_some_iff (b : Board) (c : Nat) :
    ∀ n r, findDropRowAux b c n = some r ↔
      r < n ∧ cellAt b r c = none ∧ ∀ r2, r < r2 → r2 < n → cellAt b r2 c ≠ none := by
  intro n
  induction n with
  | zero => intro r; simp [findDropRowAux]
  | succ n ih =>
    intro r
    unfold findDropRowAux
    by_cases h : cellAt b n c = none
    · rw [if_pos h]
      constructor
      · intro hr
        injection hr with hr
        subst hr
        exact ⟨Nat.lt_succ_self _, h, fun r2 h1 h2 => absurd h1 (by omega)⟩
      · rintro ⟨hr, he, hall⟩
        by_cases hrn : r = n
        · subst hrn; rfl
        · exact absurd h (hall n (by omega) (by omega))
    · rw [if_neg h, ih r]
      constructor
      · rintro ⟨hr, he, hall⟩
        refine ⟨by omega, he, fun r2 h1 h2 => ?_⟩
        by_cases hr2 : r2 = n
        · subst hr2; exact h
        · exact hall r2 h1 (by omega)
      · rintro ⟨hr, he, hall⟩
        have hrn : r ≠ n := by rintro rfl; exact h he
        exact ⟨by omega, he, fun r2 h1 h2 => hall r2 h1 (by omega)⟩

theorem findDropRowAux_eq_none_iff (b : Board) (c : Nat) :
    ∀ n, findDropRowAux b c n = none ↔ ∀ r, r < n → cellAt b r c ≠ none := by
  intro n
  induction n with
  | zero => simp [findDropRowAux]
  | succ n ih =>
    unfold findDropRowAux
    by_cases h : cellAt b n c = none
    · rw [if_pos h]
      constructor
      · intro hfalse; exact absurd hfalse (by simp)
      · intro hall; exact absurd h (hall n (Nat.lt_succ_self n))
    · rw [if_neg h, ih]
      constructor
      · intro hall r hr
        by_cases hrn : r = n
        · subst hrn; exact h
        · exact hall r (by omega)
      · intro hall r hr
        exact hall r (by omega)

theorem row_length_of_wf (b : Board) (r : Nat)
    (hrows : ∀ row ∈ b, row.length = 7) (hr : r < b.length) :
    (b.getD r []).length = 7 := by
  apply hrows
  rw [List.getD_eq_getElem?_getD, List.getElem?_eq_getElem hr]
  exact List.getElem_mem ..

theorem cellAt_setCell_self (b : Board) (r c : Nat) (color : Color)
    (hr : r < b.length) (hcl : c < (b.getD r []).length) :
    cellAt (setCell b r c color) r c = some color := by
  unfold cellAt setCell
  rw [getD_set_self b r _ [] hr, getD_set_self _ c _ none hcl]

theorem cellAt_setCell_of_ne (b : Board) (r c r2 c2 : Nat) (color : Color)
    (h : r2 ≠ r ∨ c2 ≠ c) :
    cellAt (setCell b r c color) r2 c2 = cellAt b r2 c2 := by
  unfold cellAt setCell
  by_cases hrr : r2 = r
  · subst hrr
    have hcc : c2 ≠ c := h.resolve_left (fun hh => hh rfl)
    by_cases hrl : r2 < b.length
    · rw [getD_set_self b r2 _ [] hrl, getD_set_ne _ c c2 _ none (fun hh => hcc hh.symm)]
    · rw [List.set_eq_of_length_le (Nat.le_of_not_lt hrl)]
  · rw [getD_set_ne b r r2 _ [] (fun hh => hrr hh.symm)]

/-! ## Claims about `POST /game/:gameId/move` -/

/-- C1: the claim says an accepted move persists the updated board and the
new turn, leaving the stored `currentTurn` equal to the player who did not
just move.  In the code, `db.js updateGameState` ignores its arguments and
reads the unbound identifiers `board`/`nextTurn`/`gameId`, so the accepted
move below (right player, empty column) makes the handler throw a
`ReferenceError`: nothing is persisted, the stored game is unchanged, and
the stored `currentTurn` is still the mover (user 1). -/
theorem c1_accepted_move_persists_nothing :
    moveHandler [(1, ⟨some 1, some 2, some 1, initialBoard, none⟩)] [1, 2] 1 1 3
      = (.thrown (.referenceError "board"),
         [(1, ⟨some 1, some 2, some 1, initialBoard, none⟩)], [])
    ∧ (lookupGame
        (moveHandler [(1, ⟨some 1, some 2, some 1, initialBoard, none⟩)] [1, 2] 1 1 3).2.1
        1).map Game.currentTurn = some (some 1) := by
  exact ⟨by decide, by decide⟩

/-- C2: on a 6×7 board and a column 0..6, (a) whenever the column has an
empty cell, the move occupies the lowest empty cell — the scan from the
bottom row upward returns a row `r` whose cell is empty while every row
below it (larger index) is occupied, and exactly that cell is set to the
mover's colour; (b) when all 6 rows are occupied, placement fails and the
handler answers "Column is full" with the stored games unchanged; (c) on a
fresh board the first drop lands at row index 5 and the second at row 4. -/
theorem c2_gravity_drop (b : Board) (c : Nat) (color : Color)
    (hlen : b.length = 6) (hrows : ∀ row ∈ b, row.length = 7) (hc : c < 7) :
    ((∃ r, r < 6 ∧ cellAt b r c = none) →
      ∃ r b2, placeOnBoard b c color = some (b2, r) ∧ r < 6 ∧ cellAt b r c = none ∧
        (∀ r2, r < r2 → r2 < 6 → cellAt b r2 c ≠ none) ∧
        cellAt b2 r c = some color ∧
        (∀ r2 c2, r2 ≠ r ∨ c2 ≠ c → cellAt b2 r2 c2 = cellAt b r2 c2)) ∧
    ((∀ r, r < 6 → cellAt b r c ≠ none) →
      placeOnBoard b c color = none ∧
      (∀ games registered gid pid game, lookupGame games gid = some game →
        game.gameState = b → game.currentTurn = some pid →
        moveHandler games registered gid pid (c : Int) = (.columnFull, games, []))) ∧
    findDropRow initialBoard c = some 5 ∧
    findDropRow (setCell initialBoard 5 c color) c = some 4 := by
  refine ⟨?_, ?_, ?_, ?_⟩
  · rintro ⟨r0, hr0, he0⟩
    cases hfind : findDropRow b c with
    | none =>
      exfalso
      have hn := (findDropRowAux_eq_none_iff b c b.length).mp
        (by rwa [findDropRow] at hfind)
      exact hn r0 (by omega) he0
    | some r =>
      obtain ⟨hrlt, hcell, habove⟩ := (findDropRowAux_eq_some_iff b c b.length r).mp
        (by rwa [findDropRow] at hfind)
      refine ⟨r, setCell b r c color, ?_, by omega, hcell, ?_, ?_, ?_⟩
      · unfold placeOnBoard
        rw [hfind]
      · intro r2 h1 h2
        exact habove r2 h1 (by omega)
      · exact cellAt_setCell_self b r c color (by omega)
          (by rw [row_length_of_wf b r hrows (by omega)]; omega)
      · intro r2 c2 hne
        exact cellAt_setCell_of_ne b r c r2 c2 color hne
  · intro hfull
    have hnone : findDropRow b c = none := by
      rw [findDropRow, findDropRowAux_eq_none_iff]
      intro r hr
      exact hfull r (by omega)
    have hplace : ∀ x, placeOnBoard b c x = none := by
      intro x
      unfold placeOnBoard
      rw [hnone]
    refine ⟨hplace color, ?_⟩
    intro games registered gid pid game hlook hstate hturn
    have hcol : ¬((c : Int) < 0 ∨ (7 : Int) ≤ (c : Int)) := by omega
    simp only [moveHandler, hlook]
    rw [if_neg hcol]
    rw [if_neg (by rw [hturn]; exact fun hh => hh rfl)]
    have htoNat : ((c : Int)).toNat = c := rfl
    rw [hstate, htoNat, hplace]
  · interval_cases c <;> decide
  · interval_cases c <;> cases color <;> decide

/-- C2 witness: the fresh 6×7 board with column 3. -/
theorem c2_gravity_drop_witness :
    initialBoard.length = 6 ∧ (3 : Nat) < 7 ∧ findDropRow initialBoard 3 = some 5 :=
  ⟨rfl, by decide,
   (c2_gravity_drop initialBoard 3 Color.red rfl (by decide) (by decide)).2.2.1⟩

/-- C3 counterexample: the claim says every move request whose `playerId`
differs from the stored `currentTurn` fails with "not your turn".  A request
with an out-of-range column (here 9) from the wrong player (player 2 while
it is player 1's turn, game non-terminal) instead fails with
"Invalid column" — the column guard runs before the turn check. -/
theorem c3_counterexample_out_of_range_column :
    (Game.mk (some 1) (some 2) (some 1) initialBoard none).winner = none
    ∧ (Game.mk (some 1) (some 2) (some 1) initialBoard none).currentTurn ≠ some 2
    ∧ moveHandler [(1, Game.mk (some 1) (some 2) (some 1) initialBoard none)] [] 1 2 9
        = (.invalidColumn, [(1, Game.mk (some 1) (some 2) (some 1) initialBoard none)], [])
    ∧ (moveHandler [(1, Game.mk (some 1) (some 2) (some 1) initialBoard none)] [] 1 2 9).1
        ≠ .notYourTurn := by
  exact ⟨rfl, by decide, by decide, by decide⟩

/-- C3 (amended): for every stored non-terminal game and every move request
whose column is in range 0..6 and whose `playerId` differs from the stored
`currentTurn`, the handler answers "Not your turn", the stored games are
unchanged and nothing is pushed.  (Out-of-range columns fail earlier with
"Invalid column", also without mutation.) -/
theorem c3_wrong_turn_rejected (games : List (Nat × Game))
    (registered : List Nat) (gid pid : Nat) (col : Int) (game : Game)
    (hfound : lookupGame games gid = some game)
    (_hterm : game.winner = none)
    (hcol : ¬(col < 0 ∨ 7 ≤ col))
    (hturn : game.currentTurn ≠ some pid) :
    moveHandler games registered gid pid col = (.notYourTurn, games, []) := by
  simp only [moveHandler, hfound]
  rw [if_neg hcol, if_pos hturn]

/-- C3 witness: a concrete wrong-player move inside the column range. -/
theorem c3_wrong_turn_rejected_witness :
    lookupGame [(1, Game.mk (some 1) (some 2) (some 1) initialBoard none)] 1
      = some (Game.mk (some 1) (some 2) (some 1) initialBoard none)
    ∧ moveHandler [(1, Game.mk (some 1) (some 2) (some 1) initialBoard none)] [] 1 2 3
        = (.notYourTurn, [(1, Game.mk (some 1) (some 2) (some 1) initialBoard none)], []) :=
  ⟨by decide,
   c3_wrong_turn_rejected _ _ _ _ _ (Game.mk (some 1) (some 2) (some 1) initialBoard none)
     (by decide) rfl (by decide) (by decide)⟩

/-- C5: the claim says both registered participants receive a move push on
every successful move.  With both players (3 and 4) registered and an
accepted move, the handler throws inside `logic.updateGameState` before
lines 215–220 run, so the push list is empty: no participant ever receives
a move notification. -/
theorem c5_move_notifications_never_sent :
    (moveHandler [(7, Game.mk (some 3) (some 4) (some 3) initialBoard none)] [3, 4] 7 3 0).2.2
      = []
    ∧ moveHandler [(7, Game.mk (some 3) (some 4) (some 3) initialBoard none)] [3, 4] 7 3 0
        = (.thrown (.referenceError "board"),
           [(7, Game.mk (some 3) (some 4) (some 3) initialBoard none)], []) := by
  exact ⟨by decide, by decide⟩

/-! ## C4: the session token weave -/

theorem jsCharAt_of_lt (s : List Char) (i : Nat) (h : i < s.length) :
    jsCharAt s i = [s[i]] := by
  unfold jsCharAt
  rw [List.getElem?_eq_getElem h]

theorem flatMap_range_length_of_blocks (f : Nat → List Char) (k : Nat) :
    ∀ n, (∀ i, i < n → (f i).length = k) →
      ((List.range n).flatMap f).length = k * n := by
  intro n
  induction n with
  | zero => intro _; simp
  | succ n ih =>
    intro hf
    rw [List.range_succ, List.flatMap_append, List.length_append,
      ih (fun i hi => hf i (by omega))]
    have hsing : ([n] : List Nat).flatMap f = f n := by simp
    rw [hsing, hf n (Nat.lt_succ_self n)]
    ring

theorem flatMap_range_getElem_of_blocks (f : Nat → List Char) (k : Nat) :
    ∀ n, (∀ i, i < n → (f i).length = k) → ∀ i j, i < n → j < k →
      ((List.range n).flatMap f)[k * i + j]? = (f i)[j]? := by
  intro n
  induction n with
  | zero => intro _ i j hi _; exact absurd hi (Nat.not_lt_zero i)
  | succ n ih =>
    intro hf i j hi hj
    rw [List.range_succ, List.flatMap_append]
    have hlen : ((List.range n).flatMap f).length = k * n :=
      flatMap_range_length_of_blocks f k n (fun i2 hi2 => hf i2 (by omega))
    by_cases hin : i < n
    · have hlt : k * i + j < k * n := by
        have h1 : k * (i + 1) = k * i + k := Nat.mul_succ k i
        have h2 : k * (i + 1) ≤ k * n := Nat.mul_le_mul_left k (by omega)
        omega
      rw [List.getElem?_append, hlen, if_pos hlt]
      exact ih (fun i2 hi2 => hf i2 (by omega)) i j hin hj
    · have hieq : i = n := by omega
      subst hieq
      rw [List.getElem?_append, hlen, if_neg (by omega)]
      have hsing : ([i] : List Nat).flatMap f = f i := by simp
      rw [hsing]
      congr 1
      omega

/-- C4: with `digest` any fixed-length hash (sha256 hex digests always have
64 characters), the derived token is the character interleaving of the three
digests — it has length 192 and, for every `i < 64`, carries character `i`
of `digest ip` at position `3i`, of `digest userId` at `3i+1`, and of
`digest username` at `3i+2` — with no index overrun (the length is exactly
`3 × 64`, so no `undefined` padding was ever appended); and the derivation
is a pure function, so repeated calls on the same inputs yield the
identical token. -/
theorem c4_session_token_interleave (digest : List Char → List Char)
    (hd : ∀ s, (digest s).length = 64)
    (ip userId username : List Char) (i : Nat) (hi : i < 64) :
    (createSessionToken digest ip userId username).length = 192 ∧
    (createSessionToken digest ip userId username)[3 * i]? = (digest ip)[i]? ∧
    (createSessionToken digest ip userId username)[3 * i + 1]? = (digest userId)[i]? ∧
    (createSessionToken digest ip userId username)[3 * i + 2]? = (digest username)[i]? ∧
    createSessionToken digest ip userId username
      = createSessionToken digest ip userId username := by
  have hmax : max (digest ip).length
      (max (digest userId).length (digest username).length) = 64 := by
    rw [hd, hd, hd]
    simp
  have hip : i < (digest ip).length := by rw [hd]; omega
  have huid : i < (digest userId).length := by rw [hd]; omega
  have hun : i < (digest username).length := by rw [hd]; omega
  have hblock : ∀ j, j < 64 →
      ((fun j => jsCharAt (digest ip) j
        ++ (jsCharAt (digest userId) j ++ jsCharAt (digest username) j)) j).length = 3 := by
    intro j hj
    dsimp only
    rw [jsCharAt_of_lt _ _ (by rw [hd]; omega), jsCharAt_of_lt _ _ (by rw [hd]; omega),
      jsCharAt_of_lt _ _ (by rw [hd]; omega)]
    rfl
  have hidx : ∀ j, j < 3 →
      (createSessionToken digest ip userId username)[3 * i + j]?
        = (jsCharAt (digest ip) i
            ++ (jsCharAt (digest userId) i ++ jsCharAt (digest username) i))[j]? := by
    intro j hj
    unfold createSessionToken createWeave
    rw [hmax]
    exact flatMap_range_getElem_of_blocks _ 3 64 hblock i j hi hj
  refine ⟨?_, ?_, ?_, ?_, rfl⟩
  · unfold createSessionToken createWeave
    rw [hmax]
    exact flatMap_range_length_of_blocks _ 3 64 hblock
  · have h0 := hidx 0 (by omega)
    rw [Nat.add_zero] at h0
    rw [h0, jsCharAt_of_lt _ _ hip, List.getElem?_eq_getElem hip]
    simp
  · have h1 := hidx 1 (by omega)
    rw [h1, jsCharAt_of_lt _ _ hip, jsCharAt_of_lt _ _ huid,
      List.getElem?_eq_getElem huid]
    simp
  · have h2 := hidx 2 (by omega)
    rw [h2, jsCharAt_of_lt _ _ hip, jsCharAt_of_lt _ _ huid, jsCharAt_of_lt _ _ hun,
      List.getElem?_eq_getElem hun]
    simp

/-- C4 witness: the theorem applied to the constant digest of 64 zeros. -/
theorem c4_session_token_interleave_witness :
    (createSessionToken (fun _ => List.replicate 64 '0') [] [] []).length = 192 ∧
    (createSessionToken (fun _ => List.replicate 64 '0') [] [] [])[0]? = some '0' := by
  have h := c4_session_token_interleave (fun _ => List.replicate 64 '0')
    (fun _ => by simp) [] [] [] 0 (by omega)
  refine ⟨h.1, ?_⟩
  have h0 := h.2.1
  rw [Nat.mul_zero] at h0
  rw [h0]
  simp [List.getElem?_replicate]

/-! ## C6/C7: the room map -/

theorem hasRoom_setRoomMembers (rooms : RoomMap) (name name2 : Option String)
    (ms : List Nat) :
    hasRoom (setRoomMembers rooms name ms) name2 = hasRoom rooms name2 := by
  unfold hasRoom setRoomMembers
  induction rooms with
  | nil => rfl
  | cons p rest ih =>
    simp only [List.map_cons, List.any_cons]
    rw [ih]
    congr 1
    by_cases hp : p.1 == name
    · rw [if_pos hp]
    · rw [if_neg hp]

theorem getRoom_setRoomMembers_self (rooms : RoomMap) (name : Option String)
    (ms : List Nat) (h : hasRoom rooms name = true) :
    getRoom (setRoomMembers rooms name ms) name = ms := by
  induction rooms with
  | nil => exact absurd h (by simp [hasRoom])
  | cons p rest ih =>
    unfold getRoom setRoomMembers
    simp only [List.map_cons]
    by_cases hp : p.1 == name
    · rw [if_pos hp, List.find?_cons_of_pos _ (by simpa using hp)]
      rfl
    · rw [if_neg hp, List.find?_cons_of_neg _ (by simpa using hp)]
      have h2 : hasRoom rest name = true := by
        unfold hasRoom at h
        rw [List.any_cons] at h
        simp only [hp, Bool.false_or] at h
        exact h
      exact ih h2

theorem hasRoom_append_singleton (rooms : RoomMap) (name : Option String) :
    hasRoom (rooms ++ [(name, [])]) name = true := by
  unfold hasRoom
  rw [List.any_append]
  simp

theorem getRoom_append_of_not_has (rooms : RoomMap) (name : Option String)
    (h : hasRoom rooms name = false) :
    getRoom (rooms ++ [(name, [])]) name = [] := by
  induction rooms with
  | nil => simp [getRoom]
  | cons p rest ih =>
    unfold hasRoom at h
    rw [List.any_cons, Bool.or_eq_false_iff] at h
    obtain ⟨hp, hrest⟩ := h
    unfold getRoom
    rw [List.cons_append, List.find?_cons_of_neg _ (by simp [hp])]
    exact ih hrest

/-- C6 counterexample: a fresh connection (socket 7) joins room `"g1"` and
then leaves it while no other connection is a member; afterwards `"g1"` is
still present in the room map (with an empty member set) — the `"leave"`
handler only removes the socket and never deletes a room — contradicting
the claim that the room is then absent. -/
theorem c6_counterexample_leave_keeps_room :
    hasRoom (leaveRoom (joinRoom [(some "lobby", [])] (some "g1") 7) (some "g1") 7)
      (some "g1") = true
    ∧ getRoom (leaveRoom (joinRoom [(some "lobby", [])] (some "g1") 7) (some "g1") 7)
        (some "g1") = [] := by
  exact ⟨by decide, by decide⟩

/-- C6 (amended): after a connection joins room R and then leaves it while
no other connection is a member, R is still present in the room map, with an
empty member set; empty-room deletion happens only in the close handler.  In
particular `"lobby"` also remains present. -/
theorem c6_leave_keeps_empty_room (rooms : RoomMap) (name : Option String)
    (ws : Nat)
    (hm : getRoom rooms name = [] ∨ getRoom rooms name = [ws]) :
    hasRoom (leaveRoom (joinRoom rooms name ws) name ws) name = true ∧
    getRoom (leaveRoom (joinRoom rooms name ws) name ws) name = [] := by
  have hj_has : hasRoom (joinRoom rooms name ws) name = true := by
    unfold joinRoom
    by_cases hh : hasRoom rooms name = true
    · rw [if_pos hh, hasRoom_setRoomMembers]
      exact hh
    · rw [if_neg hh, hasRoom_setRoomMembers]
      exact hasRoom_append_singleton rooms name
  have hj_get : getRoom (joinRoom rooms name ws) name = [ws] := by
    unfold joinRoom
    by_cases hh : hasRoom rooms name = true
    · rw [if_pos hh, getRoom_setRoomMembers_self _ _ _ hh]
      rcases hm with hm | hm <;> rw [hm] <;> unfold roomAdd
      · rw [if_neg (by simp)]
        rfl
      · rw [if_pos (by simp)]
    · rw [if_neg hh,
        getRoom_setRoomMembers_self _ _ _ (hasRoom_append_singleton rooms name),
        getRoom_append_of_not_has rooms name (by simpa using hh)]
      unfold roomAdd
      rw [if_neg (by simp)]
      rfl
  refine ⟨?_, ?_⟩
  · unfold leaveRoom
    rw [if_pos hj_has, hasRoom_setRoomMembers]
    exact hj_has
  · unfold leaveRoom
    rw [if_pos hj_has, hj_get, getRoom_setRoomMembers_self _ _ _ hj_has]
    simp

/-- C6 witness: leaving `"lobby"` itself, having been its only member,
keeps `"lobby"` present (now empty). -/
theorem c6_leave_keeps_empty_room_witness :
    hasRoom (leaveRoom (joinRoom [(some "lobby", [5])] (some "lobby") 5)
      (some "lobby") 5) (some "lobby") = true ∧
    getRoom (leaveRoom (joinRoom [(some "lobby", [5])] (some "lobby") 5)
      (some "lobby") 5) (some "lobby") = [] :=
  c6_leave_keeps_empty_room [(some "lobby", [5])] (some "lobby") 5
    (Or.inr (by decide))

/-- C7: when a connection (socket `ws`, bound to `uid`) closes — assuming,
as the `Set` semantics guarantees, that no member list holds duplicates —
cleanup is immediate and complete: (1) `uid` is no longer in the registry;
(2) `ws` is a member of no room; (3) every room other than `"lobby"` whose
entries all contained exactly `ws` is deleted from the map; and (4)
`"lobby"` is never deleted. -/
theorem c7_close_cleanup (us : List (Nat × Nat)) (rooms : RoomMap)
    (uid ws : Nat) (hnd : ∀ p ∈ rooms, List.Nodup p.2) :
    (∀ conn, (uid, conn) ∉ (closeHandler us rooms uid ws).1) ∧
    (∀ p ∈ (closeHandler us rooms uid ws).2, ws ∉ p.2) ∧
    (∀ name, name ≠ some "lobby" →
      (∀ ms, (name, ms) ∈ rooms → ws ∈ ms ∧ ms.erase ws = []) →
      hasRoom (closeHandler us rooms uid ws).2 name = false) ∧
    (hasRoom rooms (some "lobby") = true →
      hasRoom (closeHandler us rooms uid ws).2 (some "lobby") = true) := by
  simp only [closeHandler]
  refine ⟨?_, ?_, ?_, ?_⟩
  · intro conn hmem
    rw [List.mem_filter] at hmem
    simp at hmem
  · intro p hp
    rw [List.mem_filterMap] at hp
    obtain ⟨a, ha, hfa⟩ := hp
    by_cases hws : ws ∈ a.2
    · rw [if_pos hws] at hfa
      by_cases hcond : a.1 ≠ some "lobby" ∧ a.2.erase ws = []
      · rw [if_pos hcond] at hfa
        exact absurd hfa (by simp)
      · rw [if_neg hcond] at hfa
        injection hfa with hfa
        rw [← hfa]
        intro hmem
        rw [List.Nodup.mem_erase_iff (hnd a ha)] at hmem
        exact hmem.1 rfl
    · rw [if_neg hws] at hfa
      injection hfa with hfa
      rw [← hfa]
      exact hws
  · intro name hname hall
    unfold hasRoom
    rw [List.any_eq_false]
    intro x hx
    rw [List.mem_filterMap] at hx
    obtain ⟨a, ha, hfa⟩ := hx
    intro hbeq
    have hx1 : x.1 = name := by simpa using hbeq
    by_cases hws : ws ∈ a.2
    · rw [if_pos hws] at hfa
      by_cases hcond : a.1 ≠ some "lobby" ∧ a.2.erase ws = []
      · rw [if_pos hcond] at hfa
        exact absurd hfa (by simp)
      · rw [if_neg hcond] at hfa
        injection hfa with hfa
        have ha1 : a.1 = name := by rw [← hfa] at hx1; exact hx1
        have hmem : (name, a.2) ∈ rooms := by rw [← ha1]; exact ha
        obtain ⟨_, herase⟩ := hall a.2 hmem
        exact hcond ⟨by rw [ha1]; exact hname, herase⟩
    · rw [if_neg hws] at hfa
      injection hfa with hfa
      have ha1 : a.1 = name := by rw [← hfa] at hx1; exact hx1
      have hmem : (name, a.2) ∈ rooms := by rw [← ha1]; exact ha
      exact hws (hall a.2 hmem).1
  · intro hlobby
    unfold hasRoom at hlobby ⊢
    rw [List.any_eq_true] at hlobby
    obtain ⟨x, hx, hxb⟩ := hlobby
    rw [List.any_eq_true]
    have hx1 : x.1 = some "lobby" := by simpa using hxb
    by_cases hws : ws ∈ x.2
    · refine ⟨(x.1, x.2.erase ws), ?_, by simpa using hx1⟩
      rw [List.mem_filterMap]
      refine ⟨x, hx, ?_⟩
      rw [if_pos hws, if_neg ?_]
      intro hcond
      exact hcond.1 hx1
    · refine ⟨x, ?_, hxb⟩
      rw [List.mem_filterMap]
      exact ⟨x, hx, by rw [if_neg hws]⟩

/-- C7 witness: user 3 on socket 1, sole member of room `"h"`, disconnects:
the registry entry is gone and room `"h"` is deleted. -/
theorem c7_close_cleanup_witness :
    ((3, 1) ∉ (closeHandler [(3, 1)] [(some "h", [1])] 3 1).1) ∧
    hasRoom (closeHandler [(3, 1)] [(some "h", [1])] 3 1).2 (some "h") = false :=
  ⟨(c7_close_cleanup [(3, 1)] [(some "h", [1])] 3 1 (by decide)).1 1,
   (c7_close_cleanup [(3, 1)] [(some "h", [1])] 3 1 (by decide)).2.2.1 (some "h")
     (by decide)
     (by
       intro ms hms
       simp only [List.mem_singleton, Prod.mk.injEq, true_and] at hms
       rw [hms]
       decide)⟩

/-! ## C8/C9: the message dispatcher -/

/-- C8: the claim says a decoded payload with a known action is dispatched
without the "invalid message format" error.  In the code the `"gameChat"`
and `"gameMove"` branches read the undefined identifier `gameRooms`
(the room map is named `rooms`), so both throw a `ReferenceError`, which the
surrounding catch converts into an "Invalid message format" reply to the
sender: two of the eight known actions always produce exactly the error the
claim excludes, and the error is therefore not equivalent to a failed
structural decode (a failed decode does also produce it, and a decoded
unknown action produces "Unknown action"). -/
theorem c8_known_action_invalid_format_bug :
    dispatchAction demoState 10 1
        { action := "gameChat", gameId := some 3, sender := some "u1", message := some "hi" }
      = .error (.referenceError "gameRooms")
    ∧ handleWsMessage demoState 10 1
        (some { action := "gameChat", gameId := some 3, sender := some "u1", message := some "hi" })
      = (demoState, [(10, .errorMsg "Invalid message format")])
    ∧ handleWsMessage demoState 10 1
        (some { action := "gameMove", gmId := some 3, col := some 2 })
      = (demoState, [(10, .errorMsg "Invalid message format")])
    ∧ handleWsMessage demoState 10 1 none
      = (demoState, [(10, .errorMsg "Invalid message format")])
    ∧ handleWsMessage demoState 10 1 (some { action := "bogus" })
      = (demoState, [(10, .errorMsg "Unknown action")]) := by
  exact ⟨rfl, by decide, by decide, by decide, by decide⟩

/-- C9: the claim says an unknown `challengeId` yields a "challenge not
found" error to the decliner.  In the code `getChallengeWithId` returns
`undefined` for an unknown id, `challege.length` then throws a `TypeError`,
and the branch's catch replies "Failed to decline challenge" instead — the
"Challenge with ID ... not found" reply is dead code.  As the claim says,
the error goes to the decliner only, nothing is sent to any other party,
and no state is mutated — but the error is the generic one. -/
theorem c9_decline_unknown_challenge_bug :
    lookupChallenge demoState.challenges 42 = none
    ∧ handleWsMessage demoState 10 1
        (some { action := "declineChallenge", challengeId := some 42 })
      = (demoState, [(10, .errorMsg "Failed to decline challenge")]) := by
  exact ⟨by decide, by decide⟩

/-! ## C10: username sanitization on the login / create-account paths -/

/-- C10: every username on the login and account-creation paths is first
stripped of all characters outside `[a-zA-Z0-9_-]` and checked for length
3..15: (1) the login path queries the database with exactly
`validateSanitizeUsername(username)`, never the raw username; (2) a
sanitized result is always the stripped string with length in 3..15; (3) if
the stripped string's length is out of range the sanitized value is `null`,
the query is made with `null`, and login answers "Username or password
incorrect!"; (4) account creation inserts either nothing or exactly the
sanitized (possibly `null`) username. -/
theorem c10_username_sanitized_before_db (users : List UserRow)
    (bcryptCompare : List Char → List Char → Bool)
    (hashString : List Char → List Char) (nextId : Nat)
    (u password confirmPassword : List Char) (hpw : password ≠ []) :
    (getUserWithUsernamePassword users bcryptCompare u password).2
        = [validateSanitizeUsername u]
    ∧ (∀ s, validateSanitizeUsername u = some s →
        s = u.filter allowedChar ∧ 3 ≤ s.length ∧ s.length ≤ 15)
    ∧ (¬(3 ≤ (u.filter allowedChar).length ∧ (u.filter allowedChar).length ≤ 15) →
        validateSanitizeUsername u = none
        ∧ (getUserWithUsernamePassword users bcryptCompare u password).1
            = .errorMsg "Username or password incorrect!")
    ∧ ((addUser hashString nextId u password confirmPassword).2 = []
        ∨ (addUser hashString nextId u password confirmPassword).2
            = [(validateSanitizeUsername u, hashString password)]) := by
  have hne : password.isEmpty = false := by
    cases password with
    | nil => exact absurd rfl hpw
    | cons a l => rfl
  refine ⟨?_, ?_, ?_, ?_⟩
  · unfold getUserWithUsernamePassword
    rw [hne]
    rfl
  · intro s hs
    unfold validateSanitizeUsername at hs
    by_cases hcond : (u.filter allowedChar).all allowedChar = true
        ∧ 3 ≤ (u.filter allowedChar).length ∧ (u.filter allowedChar).length ≤ 15
    · rw [if_pos hcond] at hs
      injection hs with hs
      exact ⟨hs.symm, by rw [← hs]; exact hcond.2.1, by rw [← hs]; exact hcond.2.2⟩
    · rw [if_neg hcond] at hs
      exact absurd hs (by simp)
  · intro hlen
    have hnone : validateSanitizeUsername u = none := by
      unfold validateSanitizeUsername
      rw [if_neg (fun hcond => hlen hcond.2)]
    refine ⟨hnone, ?_⟩
    unfold getUserWithUsernamePassword
    rw [hne]
    simp only [hnone]
    rfl
  · unfold addUser
    by_cases hblank : password.isEmpty = true ∨ confirmPassword.isEmpty = true
    · rw [if_pos hblank]
      exact Or.inl rfl
    · rw [if_neg hblank]
      by_cases hmatch : password ≠ confirmPassword
      · rw [if_pos hmatch]
        exact Or.inl rfl
      · rw [if_neg hmatch]
        exact Or.inr rfl

/-- C10 witness: the username `"ab!!"` strips to `"ab"` (too short), so the
login path queries the database with `null` and answers "Username or
password incorrect!". -/
theorem c10_username_sanitized_before_db_witness :
    (['x'] : List Char) ≠ []
    ∧ (getUserWithUsernamePassword [] (fun _ _ => true) "ab!!".toList ['x']).2 = [none]
    ∧ (getUserWithUsernamePassword [] (fun _ _ => true) "ab!!".toList ['x']).1
        = .errorMsg "Username or password incorrect!" := by
  have h := c10_username_sanitized_before_db [] (fun _ _ => true) (fun s => s) 1
    "ab!!".toList ['x'] ['x'] (by decide)
  have hout := h.2.2.1 (by decide)
  refine ⟨by decide, ?_, hout.2⟩
  rw [h.1, hout.1]

end ConnectFour
